import Mathlib

/-!
Verification of the kxxxr.js effect runtime.

This file gives a shallow embedding, over `ℚ`, of the shader arithmetic and of
the pointer / render-loop / resource state machines of the three effect modules
of the repository:

* `src/effects/fluidSimulation.js` (fluid trail reveal effect),
* the realistic-water hover effect (2-pass pressure/velocity simulation),
* the glitch effect (creation and disposal only).

Shader floats are modelled as rationals; the square root used by GLSL
`length` / `distance` is passed in as an explicit parameter `sq : ℚ → ℚ`
applied to the squared norm, and all theorems that do not depend on the value
of a square root are proved for an arbitrary `sq`.  Fallible creation paths
are modelled with `Except`, and host-managed resources (render targets,
textures, materials, listeners, timers) as boolean ownership flags.
-/

/-- GLSL `clamp(x, lo, hi) = min(max(x, lo), hi)`. -/
def clampQ (x lo hi : ℚ) : ℚ := min (max x lo) hi

/-- GLSL `smoothstep(edge0, edge1, x)` interpolation formula:
`t = clamp((x - edge0) / (edge1 - edge0), 0, 1); t*t*(3 - 2*t)`.
For `edge0 ≠ edge1` the divisor is nonzero and this is exactly the
computation the GPU performs (including the reversed-edge case
`edge0 > edge1`, which the effect shaders use for radial falloffs). -/
def smoothstepQ (e0 e1 x : ℚ) : ℚ :=
  let t := clampQ ((x - e0) / (e1 - e0)) 0 1
  t * t * (3 - 2 * t)

/-- GLSL `smoothstep` together with its definedness condition for the
threshold direction used by the display shader: the GLSL specification
declares the result undefined when `edge0 ≥ edge1` — in particular when the
two edges coincide, where the normalization `(x - edge0) / (edge1 - edge0)`
divides by zero.  The undefined case is modelled as `none`. -/
def glslSmoothstep (e0 e1 x : ℚ) : Option ℚ :=
  if e0 < e1 then some (smoothstepQ e0 e1 x) else none

/-- GLSL `mix(x, y, t) = x*(1-t) + y*t`. -/
def mixQ (x y t : ℚ) : ℚ := x * (1 - t) + y * t

/-- Blend factor of the fluid display shader
(`fluidSimulation.js`, `displayFragmentShader`, lines 239–240):
`float edgeW = uEdgeWidth / uDpr; float t = smoothstep(uThreshold, uThreshold + edgeW, fluid);`. -/
def displayBlendFactor (uThreshold uEdgeWidth uDpr fluid : ℚ) : Option ℚ :=
  glslSmoothstep uThreshold (uThreshold + uEdgeWidth / uDpr) fluid

/-- Final per-channel color of the fluid display shader (line 242):
`mix(topColor, bottomColor, t)` with the blend factor above. -/
def displayPixel (top bottom uThreshold uEdgeWidth uDpr fluid : ℚ) : Option ℚ :=
  (displayBlendFactor uThreshold uEdgeWidth uDpr fluid).map (mixQ top bottom)

/-- C1 counterexample.  The claim asserts the blend factor equals
`smoothstep(threshold, threshold + edgeWidth, trailValue)` for every pixel and
that at `threshold = 0.02`, `edgeWidth = 0.004`, trail value `0.022` the factor
is ≈ 0.6875.  Both parts fail on the code: the shader divides the edge width
by the device pixel ratio (`edgeW = uEdgeWidth / uDpr`), so at `uDpr = 2` the
factor is `1`, not `smoothstep(0.02, 0.024, 0.022)`; and even at `uDpr = 1`
the factor is exactly `1/2 = smoothstep(0.02, 0.024, 0.022)`, which differs
from the claimed 0.6875 by 0.1875, far beyond shader precision. -/
theorem C1_blend_counterexample :
    displayBlendFactor (2/100) (4/1000) 2 (22/1000) = some 1 ∧
    smoothstepQ (2/100) (2/100 + 4/1000) (22/1000) = 1/2 ∧
    (1 : ℚ) ≠ 1/2 ∧
    displayBlendFactor (2/100) (4/1000) 1 (22/1000) = some (1/2) ∧
    ¬ (|(1 : ℚ)/2 - 6875/10000| ≤ 1/10) := by
  refine ⟨?_, ?_, by norm_num, ?_, by norm_num [abs_le]⟩ <;>
    · simp only [displayBlendFactor, glslSmoothstep, smoothstepQ, clampQ]
      norm_num

/-- C1 amended: for every pixel the blend factor between the top and back
images equals `smoothstep(threshold, threshold + edgeWidth / dpr, trailValue)`
(defined whenever `edgeWidth / dpr > 0`); in particular, with
`threshold = 0.02`, `edgeWidth = 0.004` and `dpr = 1`, a trail value of exactly
`0.022` gets blend factor exactly `1/2`. -/
theorem C1_blend_amended :
    (∀ th ew dpr fluid : ℚ, 0 < ew / dpr →
      displayBlendFactor th ew dpr fluid =
        some (smoothstepQ th (th + ew / dpr) fluid)) ∧
    displayBlendFactor (2/100) (4/1000) 1 (22/1000) = some (1/2) := by
  constructor
  · intro th ew dpr fluid h
    simp only [displayBlendFactor, glslSmoothstep]
    rw [if_pos (by linarith)]
  · simp only [displayBlendFactor, glslSmoothstep, smoothstepQ, clampQ]
    norm_num

/-- Witness for C1: the hypothesis `0 < edgeWidth / dpr` holds at the
scenario input and the amended formula evaluates there. -/
theorem C1_blend_amended_witness :
    (0 : ℚ) < (4/1000) / 1 ∧
    displayBlendFactor (2/100) (4/1000) 1 (22/1000) =
      some (smoothstepQ (2/100) (2/100 + (4/1000) / 1) (22/1000)) :=
  ⟨by norm_num, C1_blend_amended.1 (2/100) (4/1000) 1 (22/1000) (by norm_num)⟩

/-- C9 counterexample.  The claim asserts that with `edgeWidth = 0` the blend
factor is computed without any division by zero and acts as a hard step
(`1` above the threshold, always in `[0,1]`).  On the code, `edgeW = 0 / uDpr
= 0`, so `smoothstep` receives two equal edges: its normalization divisor
`(uThreshold + edgeW) - uThreshold` is exactly zero, the division by zero does
happen, and the GLSL specification leaves the result undefined (`none`) —
at trail value `0.1 > 0.02` no defined factor (in particular not `1`) exists. -/
theorem C9_edgewidth_zero_counterexample :
    displayBlendFactor (2/100) 0 1 (1/10) = none ∧
    (2/100 + (0 : ℚ) / 1) - 2/100 = 0 := by
  constructor
  · simp only [displayBlendFactor, glslSmoothstep]
    norm_num
  · norm_num

/-- C9 amended: when `edgeWidth = 0` the two `smoothstep` edges coincide, so
the normalization divisor is zero and the blend factor is undefined per the
GLSL specification (modelled as `none`), for every threshold, device pixel
ratio and trail value; the shader implements no hard-step special case. -/
theorem C9_edgewidth_zero_amended :
    ∀ th dpr fluid : ℚ, displayBlendFactor th 0 dpr fluid = none := by
  intro th dpr fluid
  simp only [displayBlendFactor, glslSmoothstep]
  norm_num

/-- The `main` of the fluid trail fragment shader
(`fluidSimulation.js`, `fluidFragmentShader`, lines 173–196).
`prevR` is `texture2D(uPrevTrails, vUv).r` (the pixel's previous trail value);
`sq` models the square root inside GLSL `length`, applied to the squared norm.
Returns the red channel written by `gl_FragColor`. -/
def fluidTrailMain (sq : ℚ → ℚ) (uDecay uLineWidth uLineIntensity : ℚ)
    (uIsMoving : Bool) (uMouse uPrevMouse vUv : ℚ × ℚ) (prevR : ℚ) : ℚ :=
  let newValue := prevR * uDecay
  if uIsMoving then
    let dirX := uMouse.1 - uPrevMouse.1
    let dirY := uMouse.2 - uPrevMouse.2
    let lineLength := sq (dirX ^ 2 + dirY ^ 2)
    if lineLength > 1/1000 then
      let mdX := dirX / lineLength
      let mdY := dirY / lineLength
      let toPixelX := vUv.1 - uPrevMouse.1
      let toPixelY := vUv.2 - uPrevMouse.2
      let projAlong := clampQ (toPixelX * mdX + toPixelY * mdY) 0 lineLength
      let closestX := uPrevMouse.1 + projAlong * mdX
      let closestY := uPrevMouse.2 + projAlong * mdY
      let dist := sq ((vUv.1 - closestX) ^ 2 + (vUv.2 - closestY) ^ 2)
      let intensity := smoothstepQ uLineWidth 0 dist * uLineIntensity
      newValue + intensity
    else newValue
  else newValue

/-- C10: in the fluid trail simulation step, when the pointer is marked moving
but the distance between the previous and current pointer positions is at most
`0.001`, no intensity is injected at any pixel: the new trail value is exactly
the old value times the decay, identical to the inactive case — for any square
root model `sq`. -/
theorem C10_stationary_no_inject :
    ∀ (sq : ℚ → ℚ) (uDecay uLineWidth uLineIntensity : ℚ)
      (uMouse uPrevMouse vUv : ℚ × ℚ) (prevR : ℚ),
      sq ((uMouse.1 - uPrevMouse.1) ^ 2 + (uMouse.2 - uPrevMouse.2) ^ 2) ≤ 1/1000 →
      fluidTrailMain sq uDecay uLineWidth uLineIntensity true uMouse uPrevMouse vUv prevR
          = prevR * uDecay ∧
      fluidTrailMain sq uDecay uLineWidth uLineIntensity true uMouse uPrevMouse vUv prevR
          = fluidTrailMain sq uDecay uLineWidth uLineIntensity false uMouse uPrevMouse vUv prevR := by
  intro sq uDecay uLineWidth uLineIntensity uMouse uPrevMouse vUv prevR h
  have hguard : ¬ (sq ((uMouse.1 - uPrevMouse.1) ^ 2 + (uMouse.2 - uPrevMouse.2) ^ 2) > 1/1000) :=
    not_lt.mpr h
  have hmain : fluidTrailMain sq uDecay uLineWidth uLineIntensity true uMouse uPrevMouse vUv prevR
      = prevR * uDecay := by
    simp only [fluidTrailMain]
    rw [if_pos trivial, if_neg hguard]
  have hidle : fluidTrailMain sq uDecay uLineWidth uLineIntensity false uMouse uPrevMouse vUv prevR
      = prevR * uDecay := rfl
  exact ⟨hmain, hmain.trans hidle.symm⟩

/-- Witness for C10: with coinciding pointer positions the squared-norm is `0`,
the hypothesis holds for `sq = id`, and the trail value decays with no injection. -/
theorem C10_stationary_no_inject_witness :
    id ((((1:ℚ)/2) - 1/2) ^ 2 + (((1:ℚ)/2) - 1/2) ^ 2) ≤ 1/1000 ∧
    fluidTrailMain id (97/100) (5/100) (3/10) true (1/2, 1/2) (1/2, 1/2) (1/4, 3/4) 1
      = 1 * (97/100) :=
  ⟨by norm_num,
   (C10_stationary_no_inject id (97/100) (5/100) (3/10) (1/2, 1/2) (1/2, 1/2) (1/4, 3/4) 1
     (by norm_num)).1⟩

/-- Pointer state of the fluid effect (`fluidSimulation.js`, lines 106–110):
`mouse`, `prevMouse`, the `isMoving` flag, and the pending `setTimeout`
deadline (`movementTimeoutId`, modelled by the absolute time at which the
scheduled `stopMovement` fires; `none` when no timer is pending). -/
structure FluidPointer where
  mouse : ℚ × ℚ
  prevMouse : ℚ × ℚ
  isMoving : Bool
  deadline : Option ℚ
deriving DecidableEq

/-- Initial fluid pointer state (lines 106–110). -/
def fluidPointerInit : FluidPointer := ⟨(-100, -100), (-100, -100), false, none⟩

/-- Coordinate conversion in the fluid `onMove` (lines 117–119):
`x = (clientX - rect.left) / rect.width; y = 1 - (clientY - rect.top) / rect.height`. -/
def fluidConvert (clientX clientY rLeft rTop rWidth rHeight : ℚ) : ℚ × ℚ :=
  ((clientX - rLeft) / rWidth, 1 - (clientY - rTop) / rHeight)

/-- The fluid `onMove` handler (lines 116–135): when inactive, `prevMouse`
collapses to the new position; when active, it takes the old `mouse`; the
pending idle timer is replaced by one firing `timeoutMs` after `now`. -/
def fluidOnMove (s : FluidPointer)
    (clientX clientY rLeft rTop rWidth rHeight now timeoutMs : ℚ) : FluidPointer :=
  let p := fluidConvert clientX clientY rLeft rTop rWidth rHeight
  { mouse := p
    prevMouse := if s.isMoving then s.mouse else p
    isMoving := true
    deadline := some (now + timeoutMs) }

/-- The `stopMovement` timeout callback (lines 112–114): it only clears the
moving flag; positions are untouched.  The fired timer is consumed. -/
def fluidStopMovement (s : FluidPointer) : FluidPointer :=
  { s with isMoving := false, deadline := none }

/-- The fluid `onLeave` handler (lines 137–145): deactivates, resets both
positions to the off-surface sentinel and clears the pending timer. -/
def fluidOnLeave (_s : FluidPointer) : FluidPointer :=
  ⟨(-100, -100), (-100, -100), false, none⟩

/-- Host time passing with no pointer events for the fluid effect: the
scheduled `setTimeout(stopMovement, movementTimeout)` fires once its deadline
is reached. -/
def fluidIdleAt (s : FluidPointer) (now : ℚ) : FluidPointer :=
  match s.deadline with
  | some d => if d ≤ now then fluidStopMovement s else s
  | none => s

/-- Events consumed by the fluid pointer tracker: a `mousemove` (with its
client coordinates, the canvas bounding rect, and the current time), a
`mouseleave`, and the firing of the idle timer. -/
inductive FluidEvent where
  | move (clientX clientY rLeft rTop rWidth rHeight now : ℚ)
  | leave
  | timerFire
deriving DecidableEq

/-- One fluid pointer transition. -/
def fluidPtrStep (timeoutMs : ℚ) (s : FluidPointer) : FluidEvent → FluidPointer
  | .move cx cy l t w h now => fluidOnMove s cx cy l t w h now timeoutMs
  | .leave => fluidOnLeave s
  | .timerFire => fluidStopMovement s

/-- Runs a list of fluid pointer events from a given state. -/
def fluidRunFrom (timeoutMs : ℚ) (s : FluidPointer) : List FluidEvent → FluidPointer
  | [] => s
  | e :: es => fluidRunFrom timeoutMs (fluidPtrStep timeoutMs s e) es

/-- Runs a list of fluid pointer events from the initial state. -/
def fluidRun (timeoutMs : ℚ) (es : List FluidEvent) : FluidPointer :=
  fluidRunFrom timeoutMs fluidPointerInit es

/-- Converted position of the last `move` event in the list, if any. -/
def lastFluidMovePos : List FluidEvent → Option (ℚ × ℚ)
  | [] => none
  | e :: es =>
    match lastFluidMovePos es with
    | some p => some p
    | none =>
      match e with
      | .move cx cy l t w h _ => some (fluidConvert cx cy l t w h)
      | _ => none

/-- Pointer state of the realistic-water effect (unnamed module, lines 61–62):
the `mouse` Vector4 fields `x`, `y`, `z` (`z = 2` while hovering, `0`
otherwise) and the separate `prevMouse` vector `(px, py)`. -/
structure WaterPointer where
  x : ℚ
  y : ℚ
  z : ℚ
  px : ℚ
  py : ℚ
deriving DecidableEq

/-- Initial realistic-water pointer state. -/
def waterPointerInit : WaterPointer := ⟨-100, -100, 0, -100, -100⟩

/-- Coordinate conversion in the realistic-water `onMove` (lines 64–69):
`x = ((clientX - rect.left) / rect.width) * canvas.width;`
`y = canvas.height - ((clientY - rect.top) / rect.height) * canvas.height`. -/
def waterConvert (clientX clientY rLeft rTop rWidth rHeight cw ch : ℚ) : ℚ × ℚ :=
  (((clientX - rLeft) / rWidth) * cw, ch - ((clientY - rTop) / rHeight) * ch)

/-- The realistic-water `onMove` handler (lines 63–79): `prevMouse` is updated
before the current position — to the old position while hovering
(`mouse.z > 1`), collapsing to the new position otherwise. -/
def waterOnMove (s : WaterPointer) (cx cy l t rw rh cw ch : ℚ) : WaterPointer :=
  let p := waterConvert cx cy l t rw rh cw ch
  { x := p.1, y := p.2, z := 2
    px := if s.z > 1 then s.x else p.1
    py := if s.z > 1 then s.y else p.2 }

/-- The realistic-water `onLeave` handler (lines 80–84): resets the position
to the off-surface sentinel and clears the hover flag; `prevMouse` is kept. -/
def waterOnLeave (s : WaterPointer) : WaterPointer :=
  { s with x := -100, y := -100, z := 0 }

/-- Host time passing with no pointer events for the realistic-water effect:
the effect registers no idle timer (there is no `setTimeout` anywhere in it),
so elapsed time alone never changes the pointer state. -/
def waterIdleAt (s : WaterPointer) (_now : ℚ) : WaterPointer := s

/-- Events consumed by the realistic-water pointer tracker; unlike the fluid
tracker there is no timer event, because none is ever scheduled. -/
inductive WaterEvent where
  | move (clientX clientY rLeft rTop rWidth rHeight cw ch : ℚ)
  | leave
deriving DecidableEq

/-- One realistic-water pointer transition. -/
def waterPtrStep (s : WaterPointer) : WaterEvent → WaterPointer
  | .move cx cy l t rw rh cw ch => waterOnMove s cx cy l t rw rh cw ch
  | .leave => waterOnLeave s

/-- Runs a list of realistic-water pointer events from a given state. -/
def waterRunFrom (s : WaterPointer) : List WaterEvent → WaterPointer
  | [] => s
  | e :: es => waterRunFrom (waterPtrStep s e) es

/-- Runs a list of realistic-water pointer events from the initial state. -/
def waterRun (es : List WaterEvent) : WaterPointer :=
  waterRunFrom waterPointerInit es

/-- Converted position of the last `move` event in the list, if any. -/
def lastWaterMovePos : List WaterEvent → Option (ℚ × ℚ)
  | [] => none
  | e :: es =>
    match lastWaterMovePos es with
    | some p => some p
    | none =>
      match e with
      | .move cx cy l t rw rh cw ch => some (waterConvert cx cy l t rw rh cw ch)
      | _ => none

/-- While the fluid tracker is active, `mouse` holds the converted position of
the last processed `move` event (or the run started active and saw no event
changing it). -/
lemma fluidRunFrom_active_mouse (tm : ℚ) :
    ∀ (es : List FluidEvent) (s : FluidPointer),
      (fluidRunFrom tm s es).isMoving = true →
      lastFluidMovePos es = some (fluidRunFrom tm s es).mouse ∨
        (lastFluidMovePos es = none ∧ (fluidRunFrom tm s es).mouse = s.mouse ∧
          s.isMoving = true) := by
  intro es
  induction es with
  | nil => intro s h; exact Or.inr ⟨rfl, rfl, h⟩
  | cons e es ih =>
    intro s h
    have hrun : fluidRunFrom tm s (e :: es) = fluidRunFrom tm (fluidPtrStep tm s e) es := rfl
    rw [hrun] at h ⊢
    rcases ih (fluidPtrStep tm s e) h with hl | ⟨h1, h2, h3⟩
    · left
      simp [lastFluidMovePos, hl]
    · cases e with
      | move cx cy l t w hh now =>
        left
        have hm : (fluidPtrStep tm s (.move cx cy l t w hh now)).mouse
            = fluidConvert cx cy l t w hh := rfl
        rw [h2, hm]
        simp [lastFluidMovePos, h1]
      | leave => simp [fluidPtrStep, fluidOnLeave] at h3
      | timerFire => simp [fluidPtrStep, fluidStopMovement] at h3

/-- While the realistic-water tracker is hovering (`z > 1`), `(x, y)` holds
the converted position of the last processed `move` event. -/
lemma waterRunFrom_active_mouse :
    ∀ (es : List WaterEvent) (s : WaterPointer),
      1 < (waterRunFrom s es).z →
      lastWaterMovePos es = some ((waterRunFrom s es).x, (waterRunFrom s es).y) ∨
        (lastWaterMovePos es = none ∧ (waterRunFrom s es).x = s.x ∧
          (waterRunFrom s es).y = s.y ∧ 1 < s.z) := by
  intro es
  induction es with
  | nil => intro s h; exact Or.inr ⟨rfl, rfl, rfl, h⟩
  | cons e es ih =>
    intro s h
    have hrun : waterRunFrom s (e :: es) = waterRunFrom (waterPtrStep s e) es := rfl
    rw [hrun] at h ⊢
    rcases ih (waterPtrStep s e) h with hl | ⟨h1, h2, h3, h4⟩
    · left
      simp [lastWaterMovePos, hl]
    · cases e with
      | move cx cy l t rw rh cw ch =>
        left
        have hx : (waterPtrStep s (.move cx cy l t rw rh cw ch)).x
            = (waterConvert cx cy l t rw rh cw ch).1 := rfl
        have hy : (waterPtrStep s (.move cx cy l t rw rh cw ch)).y
            = (waterConvert cx cy l t rw rh cw ch).2 := rfl
        rw [h2, h3, hx, hy]
        simp [lastWaterMovePos, h1]
      | leave =>
        exfalso
        have hz : (waterPtrStep s .leave).z = 0 := rfl
        rw [hz] at h4
        norm_num at h4

/-- C4: for every sequence of pointer events of either tracker (fluid or
realistic water), a `move` arriving while the tracker is active sets
`previousPosition` to the position recorded by the immediately preceding move
(the current `mouse`, which the invariant lemmas show equals the last move's
converted position), while a `move` arriving while inactive sets
`previousPosition` equal to the new position, so the first segment has zero
length. -/
theorem C4_pointer_prev_tracks :
    (∀ (tm : ℚ) (es : List FluidEvent) (cx cy l t w h now : ℚ),
      ((fluidRun tm es).isMoving = true →
        (fluidOnMove (fluidRun tm es) cx cy l t w h now tm).prevMouse
            = (fluidRun tm es).mouse ∧
        lastFluidMovePos es = some (fluidRun tm es).mouse) ∧
      ((fluidRun tm es).isMoving = false →
        (fluidOnMove (fluidRun tm es) cx cy l t w h now tm).prevMouse
            = fluidConvert cx cy l t w h ∧
        (fluidOnMove (fluidRun tm es) cx cy l t w h now tm).mouse
            = (fluidOnMove (fluidRun tm es) cx cy l t w h now tm).prevMouse)) ∧
    (∀ (es : List WaterEvent) (cx cy l t rw rh cw ch : ℚ),
      (1 < (waterRun es).z →
        ((waterOnMove (waterRun es) cx cy l t rw rh cw ch).px,
         (waterOnMove (waterRun es) cx cy l t rw rh cw ch).py)
            = ((waterRun es).x, (waterRun es).y) ∧
        lastWaterMovePos es = some ((waterRun es).x, (waterRun es).y)) ∧
      ((waterRun es).z ≤ 1 →
        ((waterOnMove (waterRun es) cx cy l t rw rh cw ch).px,
         (waterOnMove (waterRun es) cx cy l t rw rh cw ch).py)
            = waterConvert cx cy l t rw rh cw ch ∧
        ((waterOnMove (waterRun es) cx cy l t rw rh cw ch).x,
         (waterOnMove (waterRun es) cx cy l t rw rh cw ch).y)
            = ((waterOnMove (waterRun es) cx cy l t rw rh cw ch).px,
               (waterOnMove (waterRun es) cx cy l t rw rh cw ch).py))) := by
  constructor
  · intro tm es cx cy l t w h now
    constructor
    · intro hact
      refine ⟨by simp [fluidOnMove, hact], ?_⟩
      rcases fluidRunFrom_active_mouse tm es fluidPointerInit hact with hl | ⟨_, _, h3⟩
      · exact hl
      · simp [fluidPointerInit] at h3
    · intro hinact
      constructor
      · simp [fluidOnMove, hinact]
      · simp [fluidOnMove, hinact]
  · intro es cx cy l t rw rh cw ch
    constructor
    · intro hact
      have hgt : (waterRun es).z > 1 := hact
      refine ⟨by simp [waterOnMove, hgt], ?_⟩
      rcases waterRunFrom_active_mouse es waterPointerInit hact with hl | ⟨_, _, _, h4⟩
      · exact hl
      · simp [waterPointerInit] at h4; norm_num at h4
    · intro hinact
      have hngt : ¬ ((waterRun es).z > 1) := not_lt.mpr hinact
      constructor
      · simp [waterOnMove, hngt]
      · simp [waterOnMove, hngt]

/-- Witness for C4: after one concrete move the fluid tracker is active and a
second move shifts `prevMouse` to the first move's recorded position; the same
holds for the realistic-water tracker. -/
theorem C4_pointer_prev_witness :
    (fluidRun 50 [FluidEvent.move 30 40 0 0 100 100 0]).isMoving = true ∧
    ((fluidOnMove (fluidRun 50 [FluidEvent.move 30 40 0 0 100 100 0])
          60 70 0 0 100 100 7 50).prevMouse
        = (fluidRun 50 [FluidEvent.move 30 40 0 0 100 100 0]).mouse ∧
      lastFluidMovePos [FluidEvent.move 30 40 0 0 100 100 0]
        = some (fluidRun 50 [FluidEvent.move 30 40 0 0 100 100 0]).mouse) ∧
    1 < (waterRun [WaterEvent.move 30 40 0 0 100 100 384 288]).z ∧
    (((waterOnMove (waterRun [WaterEvent.move 30 40 0 0 100 100 384 288])
          60 70 0 0 100 100 384 288).px,
      (waterOnMove (waterRun [WaterEvent.move 30 40 0 0 100 100 384 288])
          60 70 0 0 100 100 384 288).py)
        = ((waterRun [WaterEvent.move 30 40 0 0 100 100 384 288]).x,
           (waterRun [WaterEvent.move 30 40 0 0 100 100 384 288]).y) ∧
      lastWaterMovePos [WaterEvent.move 30 40 0 0 100 100 384 288]
        = some ((waterRun [WaterEvent.move 30 40 0 0 100 100 384 288]).x,
                (waterRun [WaterEvent.move 30 40 0 0 100 100 384 288]).y)) :=
  ⟨by decide,
   (C4_pointer_prev_tracks.1 50 [FluidEvent.move 30 40 0 0 100 100 0]
       60 70 0 0 100 100 7).1 (by decide),
   by decide,
   (C4_pointer_prev_tracks.2 [WaterEvent.move 30 40 0 0 100 100 384 288]
       60 70 0 0 100 100 384 288).1 (by decide)⟩

/-- C5 counterexample.  The claim asserts that for every pointer-driven effect
(fluid and realistic water) the tracker's active flag becomes false once no
move arrives within the idle-timeout window.  The realistic-water effect
registers no idle timer at all (no `setTimeout` exists in it): here, 10⁶ ms
after a single move with no further events, its hover flag is still set
(`z = 2 > 1`). -/
theorem C5_water_no_timeout_counterexample :
    1 < (waterIdleAt (waterOnMove waterPointerInit 30 40 0 0 100 100 384 288) 1000000).z := by
  decide

/-- C5 amended: for the fluid effect, if no `onMove` arrives within
`movementTimeout` (default 50 ms, configurable) of the last move, the
scheduled `stopMovement` fires and `isMoving` becomes false with both
positions untouched; the realistic-water effect, however, has no idle timeout
— elapsed time alone never changes its pointer state, and its hover flag only
clears on `mouseleave`, which also resets the position to the off-surface
sentinel. -/
theorem C5_idle_timeout_amended :
    (∀ (s : FluidPointer) (cx cy l t w h now tm later : ℚ),
      now + tm ≤ later →
      (fluidIdleAt (fluidOnMove s cx cy l t w h now tm) later).isMoving = false ∧
      (fluidIdleAt (fluidOnMove s cx cy l t w h now tm) later).mouse
          = (fluidOnMove s cx cy l t w h now tm).mouse ∧
      (fluidIdleAt (fluidOnMove s cx cy l t w h now tm) later).prevMouse
          = (fluidOnMove s cx cy l t w h now tm).prevMouse) ∧
    (∀ (s : WaterPointer) (now : ℚ), waterIdleAt s now = s) ∧
    (∀ s : WaterPointer,
      (waterOnLeave s).z = 0 ∧ (waterOnLeave s).x = -100 ∧ (waterOnLeave s).y = -100) := by
  refine ⟨?_, fun s now => rfl, fun s => ⟨rfl, rfl, rfl⟩⟩
  intro s cx cy l t w h now tm later hle
  have hidle : fluidIdleAt (fluidOnMove s cx cy l t w h now tm) later
      = fluidStopMovement (fluidOnMove s cx cy l t w h now tm) := by
    show (if now + tm ≤ later then fluidStopMovement (fluidOnMove s cx cy l t w h now tm)
        else fluidOnMove s cx cy l t w h now tm)
      = fluidStopMovement (fluidOnMove s cx cy l t w h now tm)
    exact if_pos hle
  rw [hidle]
  exact ⟨rfl, rfl, rfl⟩

/-- Witness for C5: with the default 50 ms timeout, a move at time 0 and
quiet until time 100 deactivates the fluid tracker while preserving both
positions. -/
theorem C5_idle_timeout_witness :
    (0 : ℚ) + 50 ≤ 100 ∧
    (fluidIdleAt (fluidOnMove fluidPointerInit 30 40 0 0 100 100 0 50) 100).isMoving = false ∧
    (fluidIdleAt (fluidOnMove fluidPointerInit 30 40 0 0 100 100 0 50) 100).mouse
        = (fluidOnMove fluidPointerInit 30 40 0 0 100 100 0 50).mouse ∧
    (fluidIdleAt (fluidOnMove fluidPointerInit 30 40 0 0 100 100 0 50) 100).prevMouse
        = (fluidOnMove fluidPointerInit 30 40 0 0 100 100 0 50).prevMouse :=
  ⟨by norm_num,
   C5_idle_timeout_amended.1 fluidPointerInit 30 40 0 0 100 100 0 50 100 (by norm_num)⟩

/-- One texel of the realistic-water simulation buffer: the four channels
written by the physics shader (`gl_FragColor = vec4(pressure, pVel, gradX,
gradY)`). -/
structure WaterCell where
  pressure : ℚ
  vel : ℚ
  gradX : ℚ
  gradY : ℚ
deriving DecidableEq

/-- The all-zero texel; render targets start zeroed, and the shader writes
`vec4(0.0)` on frame 0. -/
def zeroWaterCell : WaterCell := ⟨0, 0, 0, 0⟩

/-- Clamp-to-edge texture addressing on an axis of `n` texels: sampling one
texel past the border re-reads the border texel (three.js render targets
default to `ClampToEdgeWrapping`). -/
def clampIdx (z : ℤ) (n : ℕ) : ℕ := (min (max z 0) ((n : ℤ) - 1)).toNat

/-- The `distanceToSegment` helper of the physics shader (lines 123–129):
`t = clamp(dot(p-a, ab) / max(dot(ab, ab), 1e-6), 0, 1); distance(p, a + t*ab)`;
`sq` models the square root inside GLSL `distance`. -/
def distToSegment (sq : ℚ → ℚ) (pX pY aX aY bX bY : ℚ) : ℚ :=
  let abX := bX - aX
  let abY := bY - aY
  let denom := max (abX * abX + abY * abY) (1/1000000)
  let t := clampQ (((pX - aX) * abX + (pY - aY) * abY) / denom) 0 1
  let projX := aX + t * abX
  let projY := aY + t * abY
  sq ((pX - projX) ^ 2 + (pY - projY) ^ 2)

/-- Pressure samples along one axis of the physics shader, lines 139–149,
for the cell with index `i` on an axis of `n` texels (`g i` is the pressure of
texel `i` on that axis, the orthogonal coordinate being fixed).  The raw
samples at `vUv ± texel` land on the neighboring texel centers (clamped to the
edge texel at the border), and the boundary conditions then overwrite, in
source order, the low-side sample (`if (fragCoord <= 0.5) low = high`) and the
high-side sample (`if (fragCoord >= resolution - 0.5) high = low`), with
`fragCoord = vUv * resolution = i + 0.5`.  Returns `(high, low)`, i.e.
`(p_right, p_left)` horizontally or `(p_up, p_down)` vertically. -/
def axisSamples (n : ℕ) (g : ℕ → ℚ) (i : ℕ) : ℚ × ℚ :=
  let high0 := g (clampIdx ((i : ℤ) + 1) n)
  let low0 := g (clampIdx ((i : ℤ) - 1) n)
  let frag := (((i : ℚ) + 1/2) / (n : ℚ)) * (n : ℚ)
  let low1 := if frag ≤ 1/2 then high0 else low0
  let high1 := if frag ≥ (n : ℚ) - 1/2 then low1 else high0
  (high1, low1)

/-- The `main` of the realistic-water physics shader (lines 131–178) at the
texel `(i, j)` of a `W × H` grid, as a map from the previous buffer `f` to the
newly written texel.  `sq` models the square root inside GLSL
`distance`/`length`.  Follows the source order: frame-0 clear; neighbor
sampling with boundary mirroring; the wave update and damping; the gradient;
then pointer injection (head + tail) when `iMouse.z > 1`. -/
def waterCellStep (sq : ℚ → ℚ) (uDelta uRadius uHeadStrength uTailStrength uTailWidth : ℚ)
    (W H : ℕ) (iFrame : ℕ) (mX mY mZ pmX pmY : ℚ)
    (f : ℕ → ℕ → WaterCell) (i j : ℕ) : WaterCell :=
  if iFrame = 0 then zeroWaterCell else
  let pressure0 := (f i j).pressure
  let pVel0 := (f i j).vel
  let hx := axisSamples W (fun a => (f a j).pressure) i
  let hy := axisSamples H (fun b => (f i b).pressure) j
  let pRight := hx.1
  let pLeft := hx.2
  let pUp := hy.1
  let pDown := hy.2
  let pVel1 := pVel0 + uDelta * (-2 * pressure0 + pRight + pLeft) * (1/4)
  let pVel2 := pVel1 + uDelta * (-2 * pressure0 + pUp + pDown) * (1/4)
  let pressure1 := pressure0 + uDelta * pVel2
  let pVel3 := pVel2 - (5/1000) * uDelta * pressure1
  let pVel4 := pVel3 * (1 - (2/1000) * uDelta)
  let pressure2 := pressure1 * (999/1000)
  let gX := (pRight - pLeft) * (1/2)
  let gY := (pUp - pDown) * (1/2)
  let fragX := (((i : ℚ) + 1/2) / (W : ℚ)) * (W : ℚ)
  let fragY := (((j : ℚ) + 1/2) / (H : ℚ)) * (H : ℚ)
  if mZ > 1 then
    let dist := sq ((fragX - mX) ^ 2 + (fragY - mY) ^ 2)
    let headFall := smoothstepQ uRadius 0 dist
    let dseg := distToSegment sq fragX fragY pmX pmY mX mY
    let tailFall := smoothstepQ uTailWidth 0 dseg
    let speed := sq ((mX - pmX) ^ 2 + (mY - pmY) ^ 2)
    let speedScale := clampQ (speed * (2/100)) (1/2) 3
    ⟨pressure2 + uHeadStrength * headFall + uTailStrength * tailFall * speedScale,
     pVel4, gX, gY⟩
  else
    ⟨pressure2, pVel4, gX, gY⟩

/-- The state of the realistic-water simulation buffer after `n` rendered
frames, starting from the zero-initialized render target, with `ms n` and
`pms n` the `iMouse` (x, y, z) and `uPrevMouse` uniform values at frame `n`
(the render loop passes `iFrame = n` for the n-th render). -/
def waterIterate (sq : ℚ → ℚ) (uDelta uRadius uHS uTS uTW : ℚ) (W H : ℕ)
    (ms : ℕ → ℚ × ℚ × ℚ) (pms : ℕ → ℚ × ℚ) : ℕ → ℕ → ℕ → WaterCell
  | 0 => fun _ _ => zeroWaterCell
  | n + 1 => fun i j =>
      waterCellStep sq uDelta uRadius uHS uTS uTW W H n
        (ms n).1 (ms n).2.1 (ms n).2.2 (pms n).1 (pms n).2
        (waterIterate sq uDelta uRadius uHS uTS uTW W H ms pms n) i j

/-- On an all-zero buffer every axis sample is zero. -/
lemma axisSamples_zero (n : ℕ) (i : ℕ) : axisSamples n (fun _ => 0) i = (0, 0) := by
  simp [axisSamples]

/-- A physics-shader step with inactive pointer maps the zero buffer to zero. -/
lemma waterCellStep_zero (sq : ℚ → ℚ) (uDelta uRadius uHS uTS uTW : ℚ)
    (W H : ℕ) (iFrame : ℕ) (mX mY mZ pmX pmY : ℚ) (i j : ℕ)
    (hz : mZ ≤ 1) :
    waterCellStep sq uDelta uRadius uHS uTS uTW W H iFrame mX mY mZ pmX pmY
      (fun _ _ => zeroWaterCell) i j = zeroWaterCell := by
  by_cases h0 : iFrame = 0
  · simp [waterCellStep, h0]
  · have hng : ¬ (mZ > 1) := not_lt.mpr hz
    simp only [waterCellStep, if_neg h0, if_neg hng, zeroWaterCell]
    simp [axisSamples_zero]

/-- C2: for the realistic-water simulation, if the pointer is never active
(`iMouse.z ≤ 1` at every frame, so no energy is injected) then, starting from
the zero-initialized buffers, the pressure and velocity fields (and the
gradients) are exactly zero after every simulation step, for all time — for
any square root model, time step, radii, strengths and grid size. -/
theorem C2_water_zero_stays_zero :
    ∀ (sq : ℚ → ℚ) (uDelta uRadius uHS uTS uTW : ℚ) (W H : ℕ)
      (ms : ℕ → ℚ × ℚ × ℚ) (pms : ℕ → ℚ × ℚ),
      (∀ k, (ms k).2.2 ≤ 1) →
      ∀ n i j, waterIterate sq uDelta uRadius uHS uTS uTW W H ms pms n i j = zeroWaterCell := by
  intro sq d r hS tS tW W H ms pms hm n
  induction n with
  | zero => intro i j; rfl
  | succ n ih =>
    intro i j
    have hfun : waterIterate sq d r hS tS tW W H ms pms n = fun _ _ => zeroWaterCell := by
      funext a b; exact ih a b
    show waterCellStep sq d r hS tS tW W H n
        (ms n).1 (ms n).2.1 (ms n).2.2 (pms n).1 (pms n).2
        (waterIterate sq d r hS tS tW W H ms pms n) i j = zeroWaterCell
    rw [hfun]
    exact waterCellStep_zero sq d r hS tS tW W H n _ _ _ _ _ i j (hm n)

/-- Witness for C2: with the pointer parked off-surface (`z = 0`) the 3×3
grid is still exactly zero after three frames. -/
theorem C2_water_zero_witness :
    (∀ k : ℕ, ((fun _ => ((-100 : ℚ), (-100 : ℚ), (0 : ℚ)) : ℕ → ℚ × ℚ × ℚ) k).2.2 ≤ 1) ∧
    waterIterate id 1 20 1 (6/10) 20 3 3
      (fun _ => (-100, -100, 0)) (fun _ => (-100, -100)) 3 1 1 = zeroWaterCell :=
  ⟨fun _ => by norm_num,
   C2_water_zero_stays_zero id 1 20 1 (6/10) 20 3 3
     (fun _ => (-100, -100, 0)) (fun _ => (-100, -100)) (fun _ => by norm_num) 3 1 1⟩

/-- Effective neighbor samples of `axisSamples`: for a grid axis with at least
two texels, the border overrides reduce exactly to mirroring the missing
neighbor — the low-side neighbor of texel `0` is texel `1`, the high-side
neighbor of the last texel is its low-side neighbor, and interior texels read
their actual neighbors; a missing neighbor is never read as zero. -/
lemma axisSamples_eq (n : ℕ) (g : ℕ → ℚ) (i : ℕ) (hn : 2 ≤ n) (hi : i < n) :
    axisSamples n g i
      = (g (if i = n - 1 then i - 1 else i + 1), g (if i = 0 then i + 1 else i - 1)) := by
  have hnq : (n : ℚ) ≠ 0 := by
    have h : 0 < n := by omega
    exact_mod_cast h.ne'
  have hfrag : (((i : ℚ) + 1/2) / (n : ℚ)) * (n : ℚ) = (i : ℚ) + 1/2 :=
    div_mul_cancel₀ _ hnq
  have hnq2 : (2 : ℚ) ≤ (n : ℚ) := by exact_mod_cast hn
  by_cases h0 : i = 0
  · subst h0
    have hne : ¬ ((0 : ℕ) = n - 1) := by omega
    have hcHi : clampIdx ((0 : ℕ) + 1 : ℤ) n = 1 := by
      simp only [clampIdx]
      omega
    have hcLo : clampIdx ((0 : ℕ) - 1 : ℤ) n = 0 := by
      simp only [clampIdx]
      omega
    have hcondLo : ((0 : ℕ) : ℚ) + 1/2 ≤ 1/2 := by norm_num
    have hcondHi : ¬ (((0 : ℕ) : ℚ) + 1/2 ≥ (n : ℚ) - 1/2) := by
      push_cast
      linarith
    simp only [axisSamples, hfrag, hcHi, hcLo, if_pos hcondLo, if_neg hcondHi, if_neg hne]
    simp
  · by_cases hlast : i = n - 1
    · have h1i : 1 ≤ i := by omega
      have hiq : (1 : ℚ) ≤ (i : ℚ) := by exact_mod_cast h1i
      have hcHi : clampIdx ((i : ℤ) + 1) n = n - 1 := by
        simp only [clampIdx]
        omega
      have hcLo : clampIdx ((i : ℤ) - 1) n = i - 1 := by
        simp only [clampIdx]
        omega
      have hcondLo : ¬ ((i : ℚ) + 1/2 ≤ 1/2) := by linarith
      have hcondHi : (i : ℚ) + 1/2 ≥ (n : ℚ) - 1/2 := by
        have : ((i : ℕ) : ℚ) = (n : ℚ) - 1 := by
          subst hlast
          have h1n : 1 ≤ n := by omega
          push_cast [h1n]
          ring
        linarith
      have hrw : (if i = n - 1 then i - 1 else i + 1) = i - 1 := if_pos hlast
      have hrw2 : (if i = 0 then i + 1 else i - 1) = i - 1 := if_neg h0
      simp only [axisSamples, hfrag, hcHi, hcLo, if_neg hcondLo, if_pos hcondHi, hrw, hrw2]
    · have h1i : 1 ≤ i := by omega
      have hiq : (1 : ℚ) ≤ (i : ℚ) := by exact_mod_cast h1i
      have hi2 : i + 1 ≤ n - 1 := by omega
      have hcHi : clampIdx ((i : ℤ) + 1) n = i + 1 := by
        simp only [clampIdx]
        omega
      have hcLo : clampIdx ((i : ℤ) - 1) n = i - 1 := by
        simp only [clampIdx]
        omega
      have hcondLo : ¬ ((i : ℚ) + 1/2 ≤ 1/2) := by linarith
      have hcondHi : ¬ ((i : ℚ) + 1/2 ≥ (n : ℚ) - 1/2) := by
        have hiq2 : ((i : ℕ) : ℚ) + 1 ≤ (n : ℚ) - 1 := by
          have := hi2
          have h1n : 1 ≤ n := by omega
          have : ((i + 1 : ℕ) : ℚ) ≤ ((n - 1 : ℕ) : ℚ) := by exact_mod_cast hi2
          push_cast [h1n] at this
          linarith
        linarith
      have hrw : (if i = n - 1 then i - 1 else i + 1) = i + 1 := if_neg hlast
      have hrw2 : (if i = 0 then i + 1 else i - 1) = i - 1 := if_neg h0
      simp only [axisSamples, hfrag, hcHi, hcLo, if_neg hcondLo, if_neg hcondHi, hrw, hrw2]

/-- Specification formula for one realistic-water wave-update step, written
from the spec's words (spec.md §4.4, Realistic Water): per cell, the velocity
accumulates `dt · (discrete Laplacian of pressure) · 0.25` in each axis, then
`pressure += dt·velocity`, then damping `velocity -= k·dt·pressure`,
`velocity *= 1 - c·dt`, `pressure *= 0.999`; at grid edges the missing
neighbor sample is the mirror of the opposite neighbor, never zero.  Returns
the new `(pressure, velocity)`. -/
def specWaveCell (dt k c : ℚ) (W H : ℕ) (f : ℕ → ℕ → WaterCell) (i j : ℕ) : ℚ × ℚ :=
  let p := (f i j).pressure
  let v := (f i j).vel
  let pL := (f (if i = 0 then i + 1 else i - 1) j).pressure
  let pR := (f (if i = W - 1 then i - 1 else i + 1) j).pressure
  let pD := (f i (if j = 0 then j + 1 else j - 1)).pressure
  let pU := (f i (if j = H - 1 then j - 1 else j + 1)).pressure
  let v1 := v + dt * (pL - 2 * p + pR) * (1/4)
  let v2 := v1 + dt * (pD - 2 * p + pU) * (1/4)
  let p1 := p + dt * v2
  let v3 := v2 - k * dt * p1
  let v4 := v3 * (1 - c * dt)
  let p2 := p1 * (999/1000)
  (p2, v4)

/-- C3: away from frame 0 and with the pointer inactive, each realistic-water
simulation step computes per grid cell (on any grid with at least two texels
per axis) exactly the spec's wave update — per-axis Laplacian scaled by
`dt·0.25` into the velocity, `pressure += dt·velocity`, then the damping
`velocity -= k·dt·pressure`, `velocity *= 1 - c·dt`, `pressure *= 0.999` with
the fixed positive constants `k = 0.005` and `c = 0.002` — and at grid edges
the missing neighbor sample is replaced by the mirror of the opposite
neighbor (per `axisSamples_eq`), never by zero. -/
theorem C3_wave_update_matches_spec :
    ∀ (sq : ℚ → ℚ) (uDelta uRadius uHS uTS uTW : ℚ) (W H iFrame i j : ℕ)
      (mX mY mZ pmX pmY : ℚ) (f : ℕ → ℕ → WaterCell),
      2 ≤ W → 2 ≤ H → i < W → j < H → iFrame ≠ 0 → mZ ≤ 1 →
      ((waterCellStep sq uDelta uRadius uHS uTS uTW W H iFrame mX mY mZ pmX pmY f i j).pressure,
        (waterCellStep sq uDelta uRadius uHS uTS uTW W H iFrame mX mY mZ pmX pmY f i j).vel)
          = specWaveCell uDelta (5/1000) (2/1000) W H f i j ∧
      (0 : ℚ) < 5/1000 ∧ (0 : ℚ) < 2/1000 := by
  intro sq uDelta uRadius uHS uTS uTW W H iFrame i j mX mY mZ pmX pmY f
  intro hW hH hi hj hfr hz
  refine ⟨?_, by norm_num, by norm_num⟩
  have hng : ¬ (mZ > 1) := not_lt.mpr hz
  have hax1 := axisSamples_eq W (fun a => (f a j).pressure) i hW hi
  have hax2 := axisSamples_eq H (fun b => (f i b).pressure) j hH hj
  simp only [waterCellStep, if_neg hfr, if_neg hng, hax1, hax2, specWaveCell]
  simp only [Prod.mk.injEq]
  constructor <;> ring

/-- Witness for C3: the hypotheses hold on a concrete 3×3 grid at the left
edge cell `(0, 1)` of a concrete buffer, and the step equals the spec
formula there. -/
theorem C3_wave_update_witness :
    (2 ≤ 3 ∧ 2 ≤ 3 ∧ 0 < 3 ∧ 1 < 3 ∧ (1 : ℕ) ≠ 0 ∧ (0 : ℚ) ≤ 1) ∧
    ((waterCellStep id 1 20 1 (6/10) 20 3 3 1 (-100) (-100) 0 (-100) (-100)
        (fun a b => ⟨(a : ℚ) + 2 * (b : ℚ), (a : ℚ) - (b : ℚ), 0, 0⟩) 0 1).pressure,
      (waterCellStep id 1 20 1 (6/10) 20 3 3 1 (-100) (-100) 0 (-100) (-100)
        (fun a b => ⟨(a : ℚ) + 2 * (b : ℚ), (a : ℚ) - (b : ℚ), 0, 0⟩) 0 1).vel)
        = specWaveCell 1 (5/1000) (2/1000) 3 3
            (fun a b => ⟨(a : ℚ) + 2 * (b : ℚ), (a : ℚ) - (b : ℚ), 0, 0⟩) 0 1 :=
  ⟨⟨by norm_num, by norm_num, by norm_num, by norm_num, by norm_num, by norm_num⟩,
   (C3_wave_update_matches_spec id 1 20 1 (6/10) 20 3 3 1 0 1 (-100) (-100) 0 (-100) (-100)
      (fun a b => ⟨(a : ℚ) + 2 * (b : ℚ), (a : ℚ) - (b : ℚ), 0, 0⟩)
      (by norm_num) (by norm_num) (by norm_num) (by norm_num) (by norm_num) (by norm_num)).1⟩

/-- The pair of render-target references of a ping-pong pair, named after the
fluid effect's `trailPing` / `trailPong` (the realistic-water effect calls
them `ping` / `pong`).  The two concrete buffers A and B are modelled as
`false` and `true`. -/
structure PingPong where
  ping : Bool
  pong : Bool
deriving DecidableEq

/-- Initial buffer assignment: `trailPing = trailA` (`false`) and
`trailPong = trailB` (`true`); identically `ping = rtA`, `pong = rtB` for the
realistic-water effect. -/
def pingPongInit : PingPong := ⟨false, true⟩

/-- One GPU pass of a render frame: a simulation pass reading one buffer and
writing another, or a display pass reading a buffer and writing the given
render target (`none` is the visible canvas, `setRenderTarget(null)`). -/
inductive GpuPass where
  | simPass (readBuf writeBuf : Bool)
  | displayPass (readBuf : Bool) (target : Option Bool)
deriving DecidableEq

/-- The (read, write) buffer pairs of the simulation passes in a trace. -/
def simPairs : List GpuPass → List (Bool × Bool)
  | [] => []
  | .simPass r w :: ops => (r, w) :: simPairs ops
  | .displayPass _ _ :: ops => simPairs ops

/-- The write targets of the display passes in a trace. -/
def dispTargets : List GpuPass → List (Option Bool)
  | [] => []
  | .simPass _ _ :: ops => dispTargets ops
  | .displayPass _ t :: ops => t :: dispTargets ops

/-- Relation between two consecutive simulation passes produced by a ping-pong
swap: the later pass reads exactly the buffer the earlier one wrote and
writes the buffer it read. -/
def pingPongSwapRel (p q : Bool × Bool) : Prop := q.1 = p.2 ∧ q.2 = p.1

/-- The fluid render loop's inner simulation steps (`fluidSimulation.js`,
lines 309–321): each step reads `trailPing`, writes `trailPong`, and then the
two references are swapped.  Returns the final buffer assignment and the
(read, write) pair of every step in order. -/
def fluidSimLoop : PingPong → ℕ → PingPong × List (Bool × Bool)
  | s, 0 => (s, [])
  | s, n + 1 =>
    let rest := fluidSimLoop ⟨s.pong, s.ping⟩ n
    (rest.1, (s.ping, s.pong) :: rest.2)

/-- Simulation steps per fluid frame (line 308):
`Math.max(1, Math.floor(speed))`. -/
def fluidSpeedSteps (speed : ℚ) : ℕ := max 1 ⌊speed⌋.toNat

/-- One full fluid render frame (lines 302–328): the simulation sub-steps,
then the display pass reading the post-swap `trailPing` (the buffer written
by the last simulation step) and writing the visible canvas
(`setRenderTarget(null)`). -/
def fluidRenderFrame (s : PingPong) (speed : ℚ) : PingPong × List GpuPass :=
  let sims := fluidSimLoop s (fluidSpeedSteps speed)
  (sims.1, (sims.2.map fun p => GpuPass.simPass p.1 p.2)
    ++ [GpuPass.displayPass sims.1.ping none])

/-- The fluid render loop over `k` frames, concatenating the GPU-pass traces. -/
def fluidRenderFrames (speed : ℚ) : PingPong → ℕ → PingPong × List GpuPass
  | s, 0 => (s, [])
  | s, k + 1 =>
    let f1 := fluidRenderFrame s speed
    let rest := fluidRenderFrames speed f1.1 k
    (rest.1, f1.2 ++ rest.2)

/-- One realistic-water render frame (unnamed module, lines 285–325): the
physics pass reads `ping` and writes `pong`, the display pass reads the
just-written `pong` and writes the visible canvas, and then the buffers are
swapped. -/
def waterRenderFrame (s : PingPong) : PingPong × List GpuPass :=
  (⟨s.pong, s.ping⟩, [.simPass s.ping s.pong, .displayPass s.pong none])

/-- The realistic-water render loop over `k` frames. -/
def waterRenderFrames : PingPong → ℕ → PingPong × List GpuPass
  | s, 0 => (s, [])
  | s, k + 1 =>
    let rest := waterRenderFrames ⟨s.pong, s.ping⟩ k
    (rest.1, [GpuPass.simPass s.ping s.pong, GpuPass.displayPass s.pong none] ++ rest.2)

/-- simPairs distributes over trace concatenation. -/
lemma simPairs_append (l1 l2 : List GpuPass) :
    simPairs (l1 ++ l2) = simPairs l1 ++ simPairs l2 := by
  induction l1 with
  | nil => rfl
  | cons op ops ih => cases op <;> simp [simPairs, ih]

/-- dispTargets distributes over trace concatenation. -/
lemma dispTargets_append (l1 l2 : List GpuPass) :
    dispTargets (l1 ++ l2) = dispTargets l1 ++ dispTargets l2 := by
  induction l1 with
  | nil => rfl
  | cons op ops ih => cases op <;> simp [dispTargets, ih]

/-- simPairs recovers the pairs of a pure simulation trace. -/
lemma simPairs_map (l : List (Bool × Bool)) :
    simPairs (l.map fun p => GpuPass.simPass p.1 p.2) = l := by
  induction l with
  | nil => rfl
  | cons p ps ih => simp [simPairs, ih]

/-- A pure simulation trace has no display targets. -/
lemma dispTargets_map (l : List (Bool × Bool)) :
    dispTargets (l.map fun p => GpuPass.simPass p.1 p.2) = [] := by
  induction l with
  | nil => rfl
  | cons p ps ih => simp [dispTargets, ih]

/-- Invariants of the fluid inner simulation loop: starting from two distinct
buffers, every step reads a buffer different from the one it writes,
consecutive steps are linked by the swap relation, the two references stay
distinct, there are exactly `n` steps, and (when `n ≥ 1`) the first step reads
the initial `ping` and the final state has `ping` = last written buffer. -/
lemma fluidSimLoop_spec :
    ∀ (n : ℕ) (s : PingPong), s.ping ≠ s.pong →
      (∀ p ∈ (fluidSimLoop s n).2, p.1 ≠ p.2) ∧
      List.Chain' pingPongSwapRel (fluidSimLoop s n).2 ∧
      (fluidSimLoop s n).1.ping ≠ (fluidSimLoop s n).1.pong ∧
      (fluidSimLoop s n).2.length = n ∧
      ((fluidSimLoop s n).2 = [] ∧ (fluidSimLoop s n).1 = s ∨
        (fluidSimLoop s n).2.head? = some (s.ping, s.pong) ∧
        (fluidSimLoop s n).2.getLast?
          = some ((fluidSimLoop s n).1.pong, (fluidSimLoop s n).1.ping)) := by
  intro n
  induction n with
  | zero =>
    intro s hs
    exact ⟨fun p hp => absurd hp (List.not_mem_nil p), List.chain'_nil, hs, rfl,
      Or.inl ⟨rfl, rfl⟩⟩
  | succ n ih =>
    intro s hs
    have hs2 : (PingPong.mk s.pong s.ping).ping ≠ (PingPong.mk s.pong s.ping).pong :=
      fun h => hs h.symm
    obtain ⟨ihMem, ihChain, ihNe, ihLen, ihEnds⟩ := ih ⟨s.pong, s.ping⟩ hs2
    have hcons : fluidSimLoop s (n + 1)
        = ((fluidSimLoop ⟨s.pong, s.ping⟩ n).1,
           (s.ping, s.pong) :: (fluidSimLoop ⟨s.pong, s.ping⟩ n).2) := rfl
    rw [hcons]
    refine ⟨?_, ?_, ihNe, ?_, ?_⟩
    · intro p hp
      rcases List.mem_cons.mp hp with h | h
      · subst h; exact hs
      · exact ihMem p h
    · refine List.chain'_cons'.mpr ⟨?_, ihChain⟩
      intro q hq
      rcases ihEnds with ⟨hnil, _⟩ | ⟨hhead, _⟩
      · rw [hnil] at hq; cases hq
      · rw [hhead] at hq
        cases hq
        exact ⟨rfl, rfl⟩
    · simpa using ihLen
    · refine Or.inr ⟨rfl, ?_⟩
      rcases ihEnds with ⟨hnil, hst⟩ | ⟨hhead, hlast⟩
      · rw [hnil, hst]
        rfl
      · have hne : (fluidSimLoop ⟨s.pong, s.ping⟩ n).2 ≠ [] := by
          intro h
          rw [h] at hhead
          cases hhead
        show ((s.ping, s.pong) :: (fluidSimLoop ⟨s.pong, s.ping⟩ n).2).getLast? = _
        rw [show (s.ping, s.pong) :: (fluidSimLoop ⟨s.pong, s.ping⟩ n).2
            = [(s.ping, s.pong)] ++ (fluidSimLoop ⟨s.pong, s.ping⟩ n).2 from rfl,
          List.getLast?_append_of_ne_nil _ hne, hlast]

/-- Invariants of one fluid render frame: every simulation pass reads one
buffer and writes the other, consecutive passes are linked by the swap, every
display pass writes the visible canvas, and the frame's first simulation read
is the incoming `ping` while the outgoing `ping` is the last written buffer. -/
lemma fluidRenderFrame_spec (s : PingPong) (speed : ℚ) (hs : s.ping ≠ s.pong) :
    (∀ p ∈ simPairs (fluidRenderFrame s speed).2, p.1 ≠ p.2) ∧
    List.Chain' pingPongSwapRel (simPairs (fluidRenderFrame s speed).2) ∧
    (∀ t ∈ dispTargets (fluidRenderFrame s speed).2, t = none) ∧
    (fluidRenderFrame s speed).1.ping ≠ (fluidRenderFrame s speed).1.pong ∧
    (simPairs (fluidRenderFrame s speed).2).head? = some (s.ping, s.pong) ∧
    (simPairs (fluidRenderFrame s speed).2).getLast?
      = some ((fluidRenderFrame s speed).1.pong, (fluidRenderFrame s speed).1.ping) := by
  obtain ⟨hMem, hChain, hNe, hLen, hEnds⟩ := fluidSimLoop_spec (fluidSpeedSteps speed) s hs
  have hsp : simPairs (fluidRenderFrame s speed).2
      = (fluidSimLoop s (fluidSpeedSteps speed)).2 := by
    show simPairs
        (((fluidSimLoop s (fluidSpeedSteps speed)).2.map fun p => GpuPass.simPass p.1 p.2)
          ++ [GpuPass.displayPass (fluidSimLoop s (fluidSpeedSteps speed)).1.ping none]) = _
    rw [simPairs_append, simPairs_map]
    simp [simPairs]
  have hdt : dispTargets (fluidRenderFrame s speed).2 = [none] := by
    show dispTargets
        (((fluidSimLoop s (fluidSpeedSteps speed)).2.map fun p => GpuPass.simPass p.1 p.2)
          ++ [GpuPass.displayPass (fluidSimLoop s (fluidSpeedSteps speed)).1.ping none]) = _
    rw [dispTargets_append, dispTargets_map]
    simp [dispTargets]
  have hfst : (fluidRenderFrame s speed).1 = (fluidSimLoop s (fluidSpeedSteps speed)).1 := rfl
  have hpos : 1 ≤ fluidSpeedSteps speed := le_max_left _ _
  rcases hEnds with ⟨hnil, _⟩ | ⟨hhead, hlast⟩
  · rw [hnil] at hLen
    simp at hLen
    omega
  · rw [hsp, hdt, hfst]
    refine ⟨hMem, hChain, ?_, hNe, hhead, hlast⟩
    intro t ht
    simpa using List.mem_singleton.mp ht

/-- Invariants of the fluid render loop across any number of frames: the
whole-trace versions of `fluidRenderFrame_spec`, linking frames through the
ping-pong state. -/
lemma fluidRenderFrames_spec (speed : ℚ) :
    ∀ (k : ℕ) (s : PingPong), s.ping ≠ s.pong →
      (∀ p ∈ simPairs (fluidRenderFrames speed s k).2, p.1 ≠ p.2) ∧
      List.Chain' pingPongSwapRel (simPairs (fluidRenderFrames speed s k).2) ∧
      (∀ t ∈ dispTargets (fluidRenderFrames speed s k).2, t = none) ∧
      (fluidRenderFrames speed s k).1.ping ≠ (fluidRenderFrames speed s k).1.pong ∧
      (simPairs (fluidRenderFrames speed s k).2 = [] ∧ (fluidRenderFrames speed s k).1 = s ∨
        (simPairs (fluidRenderFrames speed s k).2).head? = some (s.ping, s.pong) ∧
        (simPairs (fluidRenderFrames speed s k).2).getLast?
          = some ((fluidRenderFrames speed s k).1.pong,
                  (fluidRenderFrames speed s k).1.ping)) := by
  intro k
  induction k with
  | zero =>
    intro s hs
    exact ⟨fun p hp => absurd hp (List.not_mem_nil p), List.chain'_nil,
      fun t ht => absurd ht (List.not_mem_nil t), hs, Or.inl ⟨rfl, rfl⟩⟩
  | succ k ih =>
    intro s hs
    obtain ⟨fMem, fChain, fTgt, fNe, fHead, fLast⟩ := fluidRenderFrame_spec s speed hs
    obtain ⟨rMem, rChain, rTgt, rNe, rEnds⟩ := ih (fluidRenderFrame s speed).1 fNe
    have hcons : fluidRenderFrames speed s (k + 1)
        = ((fluidRenderFrames speed (fluidRenderFrame s speed).1 k).1,
           (fluidRenderFrame s speed).2
             ++ (fluidRenderFrames speed (fluidRenderFrame s speed).1 k).2) := rfl
    have hf1ne : simPairs (fluidRenderFrame s speed).2 ≠ [] := by
      intro h
      rw [h] at fHead
      cases fHead
    rw [hcons]
    refine ⟨?_, ?_, ?_, rNe, ?_⟩
    · intro p hp
      rw [show ((fluidRenderFrames speed (fluidRenderFrame s speed).1 k).1,
            (fluidRenderFrame s speed).2
              ++ (fluidRenderFrames speed (fluidRenderFrame s speed).1 k).2).2
          = (fluidRenderFrame s speed).2
              ++ (fluidRenderFrames speed (fluidRenderFrame s speed).1 k).2 from rfl,
        simPairs_append] at hp
      rcases List.mem_append.mp hp with h | h
      · exact fMem p h
      · exact rMem p h
    · show List.Chain' pingPongSwapRel
        (simPairs ((fluidRenderFrame s speed).2
          ++ (fluidRenderFrames speed (fluidRenderFrame s speed).1 k).2))
      rw [simPairs_append]
      refine List.chain'_append.mpr ⟨fChain, rChain, ?_⟩
      intro x hx y hy
      rw [fLast] at hx
      have hx' : x = ((fluidRenderFrame s speed).1.pong, (fluidRenderFrame s speed).1.ping) := by
        simpa [eq_comm] using hx
      rcases rEnds with ⟨hnil, _⟩ | ⟨hhead, _⟩
      · rw [hnil] at hy
        cases hy
      · rw [hhead] at hy
        have hy' : y = ((fluidRenderFrame s speed).1.ping, (fluidRenderFrame s speed).1.pong) := by
          simpa [eq_comm] using hy
        subst hx'
        subst hy'
        exact ⟨rfl, rfl⟩
    · intro t ht
      rw [show ((fluidRenderFrames speed (fluidRenderFrame s speed).1 k).1,
            (fluidRenderFrame s speed).2
              ++ (fluidRenderFrames speed (fluidRenderFrame s speed).1 k).2).2
          = (fluidRenderFrame s speed).2
              ++ (fluidRenderFrames speed (fluidRenderFrame s speed).1 k).2 from rfl,
        dispTargets_append] at ht
      rcases List.mem_append.mp ht with h | h
      · exact fTgt t h
      · exact rTgt t h
    · refine Or.inr ?_
      have hsplit : simPairs ((fluidRenderFrame s speed).2
            ++ (fluidRenderFrames speed (fluidRenderFrame s speed).1 k).2)
          = simPairs (fluidRenderFrame s speed).2
            ++ simPairs (fluidRenderFrames speed (fluidRenderFrame s speed).1 k).2 :=
        simPairs_append _ _
      constructor
      · show (simPairs ((fluidRenderFrame s speed).2
            ++ (fluidRenderFrames speed (fluidRenderFrame s speed).1 k).2)).head?
          = some (s.ping, s.pong)
        rw [hsplit, List.head?_append_of_ne_nil _ hf1ne, fHead]
      · show (simPairs ((fluidRenderFrame s speed).2
            ++ (fluidRenderFrames speed (fluidRenderFrame s speed).1 k).2)).getLast? = _
        rw [hsplit]
        rcases rEnds with ⟨hnil, hst⟩ | ⟨hhead, hlast⟩
        · rw [hnil, List.append_nil, fLast, hst]
        · have hrne : simPairs (fluidRenderFrames speed (fluidRenderFrame s speed).1 k).2 ≠ [] := by
            intro h
            rw [h] at hhead
            cases hhead
          rw [List.getLast?_append_of_ne_nil _ hrne, hlast]

/-- Invariants of the realistic-water render loop across any number of
frames: per frame one physics pass reading `ping` and writing `pong`, a
display pass to the visible canvas, then the swap; consecutive physics passes
are linked by the swap relation. -/
lemma waterRenderFrames_spec :
    ∀ (k : ℕ) (s : PingPong), s.ping ≠ s.pong →
      (∀ p ∈ simPairs (waterRenderFrames s k).2, p.1 ≠ p.2) ∧
      List.Chain' pingPongSwapRel (simPairs (waterRenderFrames s k).2) ∧
      (∀ t ∈ dispTargets (waterRenderFrames s k).2, t = none) ∧
      (waterRenderFrames s k).1.ping ≠ (waterRenderFrames s k).1.pong ∧
      (simPairs (waterRenderFrames s k).2 = [] ∧ (waterRenderFrames s k).1 = s ∨
        (simPairs (waterRenderFrames s k).2).head? = some (s.ping, s.pong) ∧
        (simPairs (waterRenderFrames s k).2).getLast?
          = some ((waterRenderFrames s k).1.pong, (waterRenderFrames s k).1.ping)) := by
  intro k
  induction k with
  | zero =>
    intro s hs
    exact ⟨fun p hp => absurd hp (List.not_mem_nil p), List.chain'_nil,
      fun t ht => absurd ht (List.not_mem_nil t), hs, Or.inl ⟨rfl, rfl⟩⟩
  | succ k ih =>
    intro s hs
    have hs2 : (PingPong.mk s.pong s.ping).ping ≠ (PingPong.mk s.pong s.ping).pong :=
      fun h => hs h.symm
    obtain ⟨rMem, rChain, rTgt, rNe, rEnds⟩ := ih ⟨s.pong, s.ping⟩ hs2
    have hcons : waterRenderFrames s (k + 1)
        = ((waterRenderFrames ⟨s.pong, s.ping⟩ k).1,
           [GpuPass.simPass s.ping s.pong, GpuPass.displayPass s.pong none]
             ++ (waterRenderFrames ⟨s.pong, s.ping⟩ k).2) := rfl
    have hsp : simPairs ([GpuPass.simPass s.ping s.pong, GpuPass.displayPass s.pong none]
          ++ (waterRenderFrames ⟨s.pong, s.ping⟩ k).2)
        = (s.ping, s.pong) :: simPairs (waterRenderFrames ⟨s.pong, s.ping⟩ k).2 := by
      rw [simPairs_append]
      rfl
    have hdt : dispTargets ([GpuPass.simPass s.ping s.pong, GpuPass.displayPass s.pong none]
          ++ (waterRenderFrames ⟨s.pong, s.ping⟩ k).2)
        = none :: dispTargets (waterRenderFrames ⟨s.pong, s.ping⟩ k).2 := by
      rw [dispTargets_append]
      rfl
    rw [hcons]
    refine ⟨?_, ?_, ?_, rNe, ?_⟩
    · intro p hp
      rw [show ((waterRenderFrames ⟨s.pong, s.ping⟩ k).1,
            [GpuPass.simPass s.ping s.pong, GpuPass.displayPass s.pong none]
              ++ (waterRenderFrames ⟨s.pong, s.ping⟩ k).2).2
          = [GpuPass.simPass s.ping s.pong, GpuPass.displayPass s.pong none]
              ++ (waterRenderFrames ⟨s.pong, s.ping⟩ k).2 from rfl, hsp] at hp
      rcases List.mem_cons.mp hp with h | h
      · subst h; exact hs
      · exact rMem p h
    · show List.Chain' pingPongSwapRel
        (simPairs ([GpuPass.simPass s.ping s.pong, GpuPass.displayPass s.pong none]
          ++ (waterRenderFrames ⟨s.pong, s.ping⟩ k).2))
      rw [hsp]
      refine List.chain'_cons'.mpr ⟨?_, rChain⟩
      intro y hy
      rcases rEnds with ⟨hnil, _⟩ | ⟨hhead, _⟩
      · rw [hnil] at hy
        cases hy
      · rw [hhead] at hy
        have hy' : y = ((PingPong.mk s.pong s.ping).ping, (PingPong.mk s.pong s.ping).pong) := by
          simpa [eq_comm] using hy
        subst hy'
        exact ⟨rfl, rfl⟩
    · intro t ht
      rw [show ((waterRenderFrames ⟨s.pong, s.ping⟩ k).1,
            [GpuPass.simPass s.ping s.pong, GpuPass.displayPass s.pong none]
              ++ (waterRenderFrames ⟨s.pong, s.ping⟩ k).2).2
          = [GpuPass.simPass s.ping s.pong, GpuPass.displayPass s.pong none]
              ++ (waterRenderFrames ⟨s.pong, s.ping⟩ k).2 from rfl, hdt] at ht
      rcases List.mem_cons.mp ht with h | h
      · exact h
      · exact rTgt t h
    · refine Or.inr ?_
      constructor
      · show (simPairs ([GpuPass.simPass s.ping s.pong, GpuPass.displayPass s.pong none]
            ++ (waterRenderFrames ⟨s.pong, s.ping⟩ k).2)).head? = _
        rw [hsp]
        rfl
      · show (simPairs ([GpuPass.simPass s.ping s.pong, GpuPass.displayPass s.pong none]
            ++ (waterRenderFrames ⟨s.pong, s.ping⟩ k).2)).getLast? = _
        rw [hsp]
        rcases rEnds with ⟨hnil, hst⟩ | ⟨hhead, hlast⟩
        · rw [hnil, hst]
          rfl
        · have hrne : simPairs (waterRenderFrames ⟨s.pong, s.ping⟩ k).2 ≠ [] := by
            intro h
            rw [h] at hhead
            cases hhead
          rw [show (s.ping, s.pong) :: simPairs (waterRenderFrames ⟨s.pong, s.ping⟩ k).2
              = [(s.ping, s.pong)] ++ simPairs (waterRenderFrames ⟨s.pong, s.ping⟩ k).2 from rfl,
            List.getLast?_append_of_ne_nil _ hrne, hlast]

/-- C6: for both ping-pong simulations (fluid trail and realistic water),
over any number of frames (and any fluid `speed`): every simulation pass
reads one buffer as previous state and writes the other — never the same
buffer; the buffers are swapped after each simulation write and before the
next read, so each simulation pass reads exactly the buffer the previous pass
wrote (the `pingPongSwapRel` chain); and every visible-surface write targets
the canvas (`none`), never any simulation buffer — in particular never the
frame's simulation input. -/
theorem C6_pingpong_invariant :
    ∀ (speed : ℚ) (k : ℕ),
      (∀ p ∈ simPairs (fluidRenderFrames speed pingPongInit k).2, p.1 ≠ p.2) ∧
      List.Chain' pingPongSwapRel (simPairs (fluidRenderFrames speed pingPongInit k).2) ∧
      (∀ t ∈ dispTargets (fluidRenderFrames speed pingPongInit k).2, t = none) ∧
      (∀ p ∈ simPairs (waterRenderFrames pingPongInit k).2, p.1 ≠ p.2) ∧
      List.Chain' pingPongSwapRel (simPairs (waterRenderFrames pingPongInit k).2) ∧
      (∀ t ∈ dispTargets (waterRenderFrames pingPongInit k).2, t = none) := by
  intro speed k
  obtain ⟨a, b, c, _, _⟩ := fluidRenderFrames_spec speed k pingPongInit (by decide)
  obtain ⟨d, e, f, _, _⟩ := waterRenderFrames_spec k pingPongInit (by decide)
  exact ⟨a, b, c, d, e, f⟩

/-- Witness for C6: in a concrete two-frame fluid run at `speed = 2` the pair
`(A, B)` occurs as a simulation pass and indeed reads and writes different
buffers; likewise for a concrete two-frame water run. -/
theorem C6_pingpong_witness :
    ((false, true) ∈ simPairs (fluidRenderFrames 2 pingPongInit 2).2 ∧
      (false, true).1 ≠ (false, true).2) ∧
    ((false, true) ∈ simPairs (waterRenderFrames pingPongInit 2).2 ∧
      (false, true).1 ≠ (false, true).2) :=
  ⟨⟨by decide, (C6_pingpong_invariant 2 2).1 (false, true) (by decide)⟩,
   ⟨by decide, (C6_pingpong_invariant 2 2).2.2.2.1 (false, true) (by decide)⟩⟩

/-- Host-visible resources of a fluid effect instance (`fluidSimulation.js`):
the `disposed` flag, the pending animation-frame callback, the pending idle
timer, the two event listeners, and every GPU-side allocation (`true` while
owned/attached, `false` once released).  The pointer coordinates survive
disposal untouched. -/
structure FluidEffectRes where
  disposed : Bool
  rafPending : Bool
  timerPending : Bool
  moveListener : Bool
  leaveListener : Bool
  topTexture : Bool
  bottomTexture : Bool
  trailA : Bool
  trailB : Bool
  geometry : Bool
  fluidMaterial : Bool
  displayMaterial : Bool
  renderer : Bool
  mouse : ℚ × ℚ
  prevMouse : ℚ × ℚ
deriving DecidableEq

/-- The fluid `dispose` (lines 332–347): sets `disposed`, clears the timer,
removes both listeners and releases every GPU allocation (when no back image
was given, `bottomTexture` aliases `topTexture` and is already released by
it).  It does not cancel the pending animation frame — the next tick sees
`disposed` and stops.  Every host call involved (`clearTimeout`,
`removeEventListener`, three.js `dispose`) is a no-op when repeated, so the
whole function acts as this idempotent state update. -/
def fluidDispose (s : FluidEffectRes) : FluidEffectRes :=
  { s with
    disposed := true
    timerPending := false
    moveListener := false
    leaveListener := false
    topTexture := false
    bottomTexture := false
    trailA := false
    trailB := false
    geometry := false
    fluidMaterial := false
    displayMaterial := false
    renderer := false }

/-- One fluid animation-loop tick (`render`, lines 302–328): a disposed
instance returns before scheduling or rendering anything; otherwise the tick
re-schedules itself and renders.  Returns (state, renderedThisTick,
scheduledNextTick). -/
def fluidRenderTick (s : FluidEffectRes) : FluidEffectRes × Bool × Bool :=
  if s.disposed then ({ s with rafPending := false }, false, false)
  else ({ s with rafPending := true }, true, true)

/-- Host-visible resources of a realistic-water effect instance. -/
structure WaterEffectRes where
  disposed : Bool
  rafPending : Bool
  moveListener : Bool
  leaveListener : Bool
  rtA : Bool
  rtB : Bool
  imageTexture : Bool
  quadGeometry : Bool
  finalQuadGeometry : Bool
  physicsMaterial : Bool
  displayMaterial : Bool
  renderer : Bool
deriving DecidableEq

/-- The realistic-water `dispose` (unnamed module, lines 328–340): sets
`disposed`, removes both listeners and releases every GPU allocation; the
pending animation frame is left to die on the `disposed` guard. -/
def waterDispose (s : WaterEffectRes) : WaterEffectRes :=
  { s with
    disposed := true
    moveListener := false
    leaveListener := false
    rtA := false
    rtB := false
    imageTexture := false
    quadGeometry := false
    finalQuadGeometry := false
    physicsMaterial := false
    displayMaterial := false
    renderer := false }

/-- One realistic-water animation-loop tick (lines 285–325), same guard
shape as the fluid one. -/
def waterRenderTick (s : WaterEffectRes) : WaterEffectRes × Bool × Bool :=
  if s.disposed then ({ s with rafPending := false }, false, false)
  else ({ s with rafPending := true }, true, true)

/-- Host-visible resources of a glitch effect instance. -/
structure GlitchEffectRes where
  disposed : Bool
  rafPending : Bool
  texture : Bool
  geometry : Bool
  material : Bool
  renderer : Bool
deriving DecidableEq

/-- The glitch `dispose` (lines 802–809): sets `disposed`, additionally
cancels the pending animation frame (`cancelAnimationFrame(raf)`), and
releases every GPU allocation. -/
def glitchDispose (s : GlitchEffectRes) : GlitchEffectRes :=
  { s with
    disposed := true
    rafPending := false
    texture := false
    geometry := false
    material := false
    renderer := false }

/-- One glitch animation-loop tick (lines 782–798), same guard shape. -/
def glitchRenderTick (s : GlitchEffectRes) : GlitchEffectRes × Bool × Bool :=
  if s.disposed then ({ s with rafPending := false }, false, false)
  else ({ s with rafPending := true }, true, true)

/-- C7: for every effect handle (fluid, realistic water, glitch), `dispose`
is idempotent — a second call is exactly the first's result, so it raises no
error and changes nothing; after the first call no further frame is rendered
and the loop stops scheduling (the glitch dispose also cancels the pending
frame directly); both event listeners are removed; and every GPU-side
allocation (render targets, textures, geometries, materials, renderer) is
released. -/
theorem C7_dispose_idempotent :
    (∀ s : FluidEffectRes,
      fluidDispose (fluidDispose s) = fluidDispose s ∧
      (fluidDispose s).disposed = true ∧
      (fluidRenderTick (fluidDispose s)).2 = (false, false) ∧
      (fluidRenderTick (fluidDispose s)).1.disposed = true ∧
      (fluidDispose s).timerPending = false ∧
      (fluidDispose s).moveListener = false ∧
      (fluidDispose s).leaveListener = false ∧
      (fluidDispose s).topTexture = false ∧
      (fluidDispose s).bottomTexture = false ∧
      (fluidDispose s).trailA = false ∧
      (fluidDispose s).trailB = false ∧
      (fluidDispose s).geometry = false ∧
      (fluidDispose s).fluidMaterial = false ∧
      (fluidDispose s).displayMaterial = false ∧
      (fluidDispose s).renderer = false ∧
      (fluidDispose s).mouse = s.mouse ∧
      (fluidDispose s).prevMouse = s.prevMouse) ∧
    (∀ s : WaterEffectRes,
      waterDispose (waterDispose s) = waterDispose s ∧
      (waterDispose s).disposed = true ∧
      (waterRenderTick (waterDispose s)).2 = (false, false) ∧
      (waterRenderTick (waterDispose s)).1.disposed = true ∧
      (waterDispose s).moveListener = false ∧
      (waterDispose s).leaveListener = false ∧
      (waterDispose s).rtA = false ∧
      (waterDispose s).rtB = false ∧
      (waterDispose s).imageTexture = false ∧
      (waterDispose s).quadGeometry = false ∧
      (waterDispose s).finalQuadGeometry = false ∧
      (waterDispose s).physicsMaterial = false ∧
      (waterDispose s).displayMaterial = false ∧
      (waterDispose s).renderer = false) ∧
    (∀ s : GlitchEffectRes,
      glitchDispose (glitchDispose s) = glitchDispose s ∧
      (glitchDispose s).disposed = true ∧
      (glitchDispose s).rafPending = false ∧
      (glitchRenderTick (glitchDispose s)).2 = (false, false) ∧
      (glitchRenderTick (glitchDispose s)).1.disposed = true ∧
      (glitchDispose s).texture = false ∧
      (glitchDispose s).geometry = false ∧
      (glitchDispose s).material = false ∧
      (glitchDispose s).renderer = false) := by
  refine ⟨fun s => ?_, fun s => ?_, fun s => ?_⟩ <;>
    simp [fluidDispose, fluidRenderTick, waterDispose, waterRenderTick,
      glitchDispose, glitchRenderTick]

/-- GPU-side allocations made by an effect creation entry point, in program
order. -/
inductive GpuAlloc where
  | renderer
  | renderTarget
  | texture
  | geometry
  | material
deriving DecidableEq

/-- The `fluidSimulationEffect` entry point (lines 23–102, 248–282) as the
sequence of its guards and allocations: the `canvas` and `imageUrl` checks
(lines 39–40) run before any construction; on success the WebGL renderer
(line 43), the two trail render targets (64–65), the top texture (74), the
optional back texture (83), the quad geometry (102) and the two shader
materials (248, 266) are allocated, in that order.  Returns the allocations
performed and either the thrown error message or unit. -/
def fluidCreate (canvasPresent : Bool) (imageUrl : Option String)
    (backImageUrl : Option String) : List GpuAlloc × Except String Unit :=
  if canvasPresent = false then ([], .error "fluidSimulationEffect: canvas is required")
  else if imageUrl.isNone then ([], .error "fluidSimulationEffect: imageUrl is required")
  else
    ([.renderer, .renderTarget, .renderTarget, .texture]
      ++ (if backImageUrl.isSome then [.texture] else [])
      ++ [.geometry, .material, .material], .ok ())

/-- The `realisticWaterHoverEffect` entry point (unnamed module, lines 9–58,
89, 183, 258, 264): the `imageUrl` check (line 24) runs before any
construction; on success the renderer (27), two render targets (46–47), the
image texture (53), the two shader materials (89, 183) and the two quad
geometries (258, 264) are allocated, in that order. -/
def waterCreate (imageUrl : Option String) : List GpuAlloc × Except String Unit :=
  if imageUrl.isNone then ([], .error "imageUrl is required")
  else
    ([.renderer, .renderTarget, .renderTarget, .texture, .material, .material,
      .geometry, .geometry], .ok ())

/-- The `glitchEffect` entry point (lines 352–428, 455, 766): the
`imageUrl`/`videoElement` check (line 381) runs before any construction; on
success the renderer (385), the texture (412 or 422), the shader material
(455) and the quad geometry (766) are allocated, in that order.  The video
element is modelled by `Option Unit`. -/
def glitchCreate (imageUrl : Option String) (videoElement : Option Unit) :
    List GpuAlloc × Except String Unit :=
  if imageUrl.isNone && videoElement.isNone then
    ([], .error "Either imageUrl or videoElement is required")
  else ([.renderer, .texture, .material, .geometry], .ok ())

/-- C8: each effect creation entry point, given no required media source
(no `imageUrl`; for glitch neither `imageUrl` nor `videoElement`), returns
the thrown configuration error synchronously with an empty allocation list —
the throw happens before any GPU resource (renderer, render target, texture,
geometry, material) is allocated. -/
theorem C8_create_throws_before_alloc :
    (∀ back : Option String,
      fluidCreate true none back
        = ([], .error "fluidSimulationEffect: imageUrl is required")) ∧
    waterCreate none = ([], .error "imageUrl is required") ∧
    glitchCreate none none = ([], .error "Either imageUrl or videoElement is required") :=
  ⟨fun _ => rfl, rfl, rfl⟩
